import Mathlib

set_option autoImplicit false

/-!
Shallow embedding of the ngrok addon core of this minikube fork:
`pkg/addons/addons_ngrok.go` (credential gate, enable/disable entry point)
and the `"ngrok"` case of `addonsConfigureCmd` in
`cmd/minikube/cmd/config/configure.go` (configuration wizard, policy-module
loop, service-to-ingress mapping loop).

Go strings are embedded as `List Char`; the cluster facade
(`pkg/minikube/service`, not part of the excerpted sources) is modelled from
the interface the spec gives for it, with explicit communication-failure
injection flags.
-/

abbrev Str := List Char

/-- The addon namespace literal `"ngrok-ingress-controller"`. -/
def nsNgrok : Str := "ngrok-ingress-controller".toList

/-- The credentials secret name literal `"ngrok-ingress-controller-credentials"`. -/
def secNgrok : Str := "ngrok-ingress-controller-credentials".toList

/-- The sentinel literal `"none"` used by both interactive loops. -/
def noneStr : Str := "none".toList

/-- The `"single"` branch literal of the domain-strategy choice. -/
def singleStr : Str := "single".toList

/-! ### Decimal rendering and parsing (`fmt.Sprintf("%d", ...)`, `strconv.Atoi`) -/

/-- The ASCII character of a single decimal digit (as produced by `%d`). -/
def digitChar (d : Nat) : Char :=
  match d with
  | 0 => '0' | 1 => '1' | 2 => '2' | 3 => '3' | 4 => '4'
  | 5 => '5' | 6 => '6' | 7 => '7' | 8 => '8' | _ => '9'

/-- Numeric value of an ASCII digit character. -/
def digitVal (c : Char) : Nat := c.toNat - 48

/-- Fuel-indexed digit renderer (structural recursion so that the kernel can
evaluate it; the fuel is always sufficient, see `natDigits_unfold`). -/
def natDigitsGo : Nat → Nat → Str
  | 0, _ => []
  | fuel + 1, n =>
    if n < 10 then [digitChar n]
    else natDigitsGo fuel (n / 10) ++ [digitChar (n % 10)]

/-- Decimal digit string of a natural number, as `%d` renders it. -/
def natDigits (n : Nat) : Str := natDigitsGo (n + 1) n

theorem natDigitsGo_fuel_irrel (n : Nat) :
    ∀ fuel fuel2 : Nat, n < fuel → n < fuel2 → natDigitsGo fuel n = natDigitsGo fuel2 n := by
  induction n using Nat.strong_induction_on with
  | _ n ih =>
    intro fuel fuel2 h1 h2
    match fuel, fuel2 with
    | f1 + 1, f2 + 1 =>
      simp only [natDigitsGo]
      split
      · rfl
      · next h10 =>
        rw [ih (n / 10) (Nat.div_lt_self (by omega) (by omega)) f1 f2 (by omega) (by omega)]

theorem natDigits_unfold (n : Nat) :
    natDigits n = if n < 10 then [digitChar n] else natDigits (n / 10) ++ [digitChar (n % 10)] := by
  show natDigitsGo (n + 1) n = _
  simp only [natDigitsGo]
  split
  · rfl
  · next h10 =>
    rw [natDigitsGo_fuel_irrel (n / 10) n (n / 10 + 1)
      (by omega) (by omega)]
    rfl

/-- Decimal rendering of a (signed) Go integer, as `fmt.Sprintf("%d", x)`. -/
def intStr (p : Int) : Str :=
  if p < 0 then '-' :: natDigits p.natAbs else natDigits p.natAbs

/-- Value of a digit string read left to right. -/
def digitsToNat (s : Str) : Nat := s.foldl (fun n c => 10 * n + digitVal c) 0

/-- A nonempty all-ASCII-digit string, the shape `strconv.Atoi` accepts after
an optional sign. -/
def isDigits (s : Str) : Bool := !s.isEmpty && s.all (fun c => c.isDigit)

/-- Embedding of `strconv.Atoi`: optional sign followed by decimal digits;
anything else is a parse error (`none`). -/
def atoi (s : Str) : Option Int :=
  match s with
  | [] => none
  | c :: rest =>
    if c = '-' then
      if isDigits rest then some (-(digitsToNat rest : Int)) else none
    else if c = '+' then
      if isDigits rest then some ((digitsToNat rest : Int)) else none
    else if isDigits (c :: rest) then some ((digitsToNat (c :: rest) : Int)) else none

/-- Twos-complement truncation to 32 bits, the `int32(port)` conversion. -/
def wrap32 (n : Int) : Int := (n + 2 ^ 31) % 2 ^ 32 - 2 ^ 31

/-- Embedding of `strings.Split(s, ":")`. -/
def splitColon : Str → List Str
  | [] => [[]]
  | c :: rest =>
    if c = ':' then [] :: splitColon rest
    else
      match splitColon rest with
      | [] => [[c]]
      | h :: t => (c :: h) :: t

/-! ### Basic lemmas about the string machinery -/

theorem digitChar_isDigit (d : Nat) : (digitChar d).isDigit = true := by
  unfold digitChar
  split <;> decide

theorem digitVal_digitChar {d : Nat} (h : d < 10) : digitVal (digitChar d) = d := by
  interval_cases d <;> decide

theorem natDigits_ne_nil (n : Nat) : natDigits n ≠ [] := by
  rw [natDigits_unfold]
  split
  · simp
  · simp

theorem natDigits_all_digit (n : Nat) : ∀ c ∈ natDigits n, c.isDigit = true := by
  induction n using Nat.strong_induction_on with
  | _ n ih =>
    rw [natDigits_unfold]
    split
    · intro c hc
      simp at hc
      subst hc
      exact digitChar_isDigit n
    · intro c hc
      rw [List.mem_append] at hc
      rcases hc with hc | hc
      · exact ih (n / 10) (Nat.div_lt_self (by omega) (by omega)) c hc
      · simp at hc
        subst hc
        exact digitChar_isDigit (n % 10)

theorem digitsToNat_append_singleton (a : Str) (c : Char) :
    digitsToNat (a ++ [c]) = 10 * digitsToNat a + digitVal c := by
  simp [digitsToNat, List.foldl_append]

theorem digitsToNat_natDigits (n : Nat) : digitsToNat (natDigits n) = n := by
  induction n using Nat.strong_induction_on with
  | _ n ih =>
    rw [natDigits_unfold]
    split
    · next h =>
      simp [digitsToNat, digitVal_digitChar h]
    · next h =>
      rw [digitsToNat_append_singleton,
        ih (n / 10) (Nat.div_lt_self (by omega) (by omega)),
        digitVal_digitChar (Nat.mod_lt n (by omega))]
      omega

theorem isDigits_natDigits (n : Nat) : isDigits (natDigits n) = true := by
  have h1 := natDigits_ne_nil n
  have h2 := natDigits_all_digit n
  simp [isDigits, List.isEmpty_iff, h1]
  exact h2

theorem colon_not_mem_natDigits (n : Nat) : ':' ∉ natDigits n := by
  intro h
  have := natDigits_all_digit n ':' h
  simp [Char.isDigit] at this

theorem atoi_natDigits (n : Nat) : atoi (natDigits n) = some (n : Int) := by
  have hne := natDigits_ne_nil n
  have hall := natDigits_all_digit n
  match hd : natDigits n with
  | [] => exact absurd hd hne
  | c :: rest =>
    have hc : c.isDigit = true := hall c (by rw [hd]; exact List.mem_cons_self c rest)
    have hcne1 : ¬ c = '-' := by
      intro h
      subst h
      simp [Char.isDigit] at hc
    have hcne2 : ¬ c = '+' := by
      intro h
      subst h
      simp [Char.isDigit] at hc
    have hdig : isDigits (c :: rest) = true := by
      rw [← hd]
      exact isDigits_natDigits n
    have hval : digitsToNat (c :: rest) = n := by
      rw [← hd]
      exact digitsToNat_natDigits n
    simp [atoi, hcne1, hcne2, hdig, hval]

theorem atoi_neg_digits (n : Nat) : atoi ('-' :: natDigits n) = some (-(n : Int)) := by
  have hdig := isDigits_natDigits n
  have hval := digitsToNat_natDigits n
  simp [atoi, hdig, hval]

theorem atoi_intStr (p : Int) : atoi (intStr p) = some p := by
  unfold intStr
  split
  · next h =>
    rw [atoi_neg_digits]
    congr 1
    omega
  · next h =>
    rw [atoi_natDigits]
    congr 1
    omega

theorem colon_not_mem_intStr (p : Int) : ':' ∉ intStr p := by
  unfold intStr
  split
  · intro h
    rcases List.mem_cons.mp h with h | h
    · exact absurd h.symm (by decide)
    · exact colon_not_mem_natDigits _ h
  · exact colon_not_mem_natDigits _

theorem splitColon_of_no_colon {a : Str} (h : ':' ∉ a) : splitColon a = [a] := by
  induction a with
  | nil => rfl
  | cons c rest ih =>
    have hc : ¬ c = ':' := fun hcc => h (by simp [hcc])
    have hr : ':' ∉ rest := fun hm => h (List.mem_cons_of_mem c hm)
    simp [splitColon, hc, ih hr]

theorem splitColon_append_colon {a : Str} (rest : Str) (h : ':' ∉ a) :
    splitColon (a ++ ':' :: rest) = a :: splitColon rest := by
  induction a with
  | nil => simp [splitColon]
  | cons c tl ih =>
    have hc : ¬ c = ':' := fun hcc => h (by simp [hcc])
    have ht : ':' ∉ tl := fun hm => h (List.mem_cons_of_mem c hm)
    have hrec := ih ht
    simp only [List.cons_append, splitColon, if_neg hc, List.append_eq, hrec]

/-! ### Data model: cluster state and facade environment -/

/-- A stored Kubernetes secret (namespace-scoped name plus string data and
labels, as `service.CreateSecret` receives them). -/
structure SecretObj where
  ns : Str
  name : Str
  data : List (Str × Str)
  labels : List (Str × Str)
deriving DecidableEq, Repr

/-- One discovered cluster service with its exposed ports, the shape the
mapping loop consumes from `service.ListAllServices` (`%d` ports are `int32`,
embedded as `Int`). -/
structure KubeService where
  ns : Str
  name : Str
  ports : List Int
deriving DecidableEq, Repr

/-- Durable cluster state reachable through the facade. -/
structure Cluster where
  namespaces : List Str
  secrets : List SecretObj
  services : List KubeService
deriving DecidableEq, Repr

/-- Facade environment: the cluster plus communication-failure injection flags
(one per facade operation) and a read-only filesystem for policy modules. -/
structure Env where
  cluster : Cluster
  failNsCheck : Bool
  failNsCreate : Bool
  failSecretCheck : Bool
  failSecretCreate : Bool
  failListServices : Bool
  failCreateIngress : Bool
  fs : List (Str × Str)
deriving DecidableEq, Repr

/-- Looks up a secret by namespace and name. -/
def lookupSecret (c : Cluster) (ns name : Str) : Option SecretObj :=
  c.secrets.find? (fun s => s.ns = ns && s.name = name)

/-- Modelled from the spec: `NamespaceExists(profile, namespace) -> bool | error`
(the `service.CheckNamespace` facade call, whose source is not in the excerpt).
Errors exactly when communication fails; otherwise reports membership. -/
def checkNamespace (e : Env) (ns : Str) : Except Str Bool :=
  if e.failNsCheck then .error "checking namespace".toList
  else .ok (e.cluster.namespaces.contains ns)

/-- Modelled from the spec: `CreateNamespace(profile, namespace) -> error`
(the `service.CreateNamespace` facade call). -/
def createNamespace (e : Env) (ns : Str) : Except Str Env :=
  if e.failNsCreate then .error "creating namespace".toList
  else .ok { e with cluster := { e.cluster with namespaces := ns :: e.cluster.namespaces } }

/-- Modelled from the spec: `SecretExists(profile, namespace, secretName) -> bool | error`
(the `service.CheckSecretExists` facade call). -/
def checkSecretExists (e : Env) (ns name : Str) : Except Str Bool :=
  if e.failSecretCheck then .error "checking secret".toList
  else .ok (lookupSecret e.cluster ns name).isSome

/-- Modelled from the spec: `CreateSecret(... data, labels) -> error` with
full-replace semantics, not a merge (the `service.CreateSecret` facade call):
any prior secret with the same namespace-scoped name is dropped whole. -/
def createSecret (e : Env) (ns name : Str) (data labels : List (Str × Str)) : Except Str Env :=
  if e.failSecretCreate then .error "creating secret".toList
  else
    let kept := e.cluster.secrets.filter (fun s => !(s.ns = ns && s.name = name))
    .ok { e with cluster := { e.cluster with secrets := ⟨ns, name, data, labels⟩ :: kept } }

/-- Modelled from the spec: `ListServices(profile)` (the
`service.ListAllServices` facade call). -/
def listAllServices (e : Env) : Except Str (List KubeService) :=
  if e.failListServices then .error "listing services".toList
  else .ok e.cluster.services

/-! ### `pkg/addons/addons_ngrok.go`: credential gate and enable entry point -/

/-- Result of an addon validation callback: `nil`, the distinguished
`ErrSkipThisAddon`, or a hard error. -/
inductive ValidationResult where
  | ok
  | skipThisAddon
  | err (msg : Str)
deriving DecidableEq, Repr

/-- Embedding of `ngrokValidation`: checks that the credentials secret exists;
a failing check is a hard error, an absent secret prints a remediation tip and
yields `ErrSkipThisAddon`, and the cluster is never mutated (the returned
environment is the input one). -/
def ngrokValidation (e : Env) : ValidationResult × Env :=
  match checkSecretExists e nsNgrok secNgrok with
  | .error m => (.err ("check secret exists: ".toList ++ m), e)
  | .ok exists_ =>
    if !exists_ then (.skipThisAddon, e) else (.ok, e)

/-- Embedding of `strconv.ParseBool`: the exact twelve accepted literals. -/
def parseBool (s : Str) : Option Bool :=
  if s = "1".toList ∨ s = "t".toList ∨ s = "T".toList ∨
     s = "TRUE".toList ∨ s = "true".toList ∨ s = "True".toList then some true
  else if s = "0".toList ∨ s = "f".toList ∨ s = "F".toList ∨
     s = "FALSE".toList ∨ s = "false".toList ∨ s = "False".toList then some false
  else none

/-- A facade call observable from the enable/disable entry point. -/
inductive GateCall where
  | secretCheck
deriving DecidableEq, Repr

/-- Embedding of `enableAddonNgrok`: checks the credentials secret and errors
with a remediation message when it is absent. The trace records the facade
calls made. -/
def enableAddonNgrok (e : Env) : Except Str Unit × List GateCall :=
  match checkSecretExists e nsNgrok secNgrok with
  | .error m => (.error ("check secret exists: ".toList ++ m), [.secretCheck])
  | .ok exists_ =>
    if !exists_ then
      (.error "please run addons configure to create your credentials".toList, [.secretCheck])
    else (.ok (), [.secretCheck])

/-- Embedding of `enableOrDisableNgrok`: parses the boolean value string;
a parse failure is an error before any cluster access, `true` delegates to
`enableAddonNgrok`, and `false` is a no-op (the disable call is commented
out in the source). -/
def enableOrDisableNgrok (e : Env) (name val : Str) : Except Str Unit × List GateCall :=
  match parseBool val with
  | none => (.error ("parsing bool: ".toList ++ name), [])
  | some true => enableAddonNgrok e
  | some false => (.ok (), [])

/-! ### `cmd/minikube/cmd/config/configure.go`: the `"ngrok"` wizard case -/

/-- Observable events of one wizard run: every facade call and interactive
prompt, in program order. -/
inductive Event where
  | nsCheck
  | nsCreate
  | secretCheck
  | credPrompt
  | secretCreate (data : List (Str × Str))
  | strategyPrompt
  | sharedDomainPrompt
  | policyPrompt
  | policyRead (path : Str)
  | policyReadErr
  | listServices
  | listErr
  | svcPrompt
  | notFound
  | domainPrompt
  | ingressCreate (ns name domain svcName : Str) (port : Int)
  | ingressErr
  | atoiErr
deriving DecidableEq, Repr

/-- The operator answers for one wizard run. Loops are modelled by the
finite list of answers the operator supplies; each ingress iteration carries
the selection string and the domain the operator would enter if prompted. -/
structure WizardInput where
  setCredentials : Bool
  authtoken : Str
  apikey : Str
  configureIngress : Bool
  domainChoice : Str
  sharedDomain : Str
  configurePolicyModule : Bool
  policyAnswers : List Str
  configureIngressToServices : Bool
  serviceAnswers : List (Str × Str)
deriving DecidableEq, Repr

/-- Embedding of `ReadFileContents`: wraps a filesystem read, turning a failed
read into an error mentioning the path. -/
def ReadFileContents (fs : List (Str × Str)) (filePath : Str) : Except Str Str :=
  match (fs.find? (fun q => q.1 = filePath)).map (fun q => q.2) with
  | none => .error ("failed to read file ".toList ++ filePath)
  | some d => .ok d

/-- Embedding of the loop body of `LoadAndCreatePolicyModules`: prompts for a
path until the sentinel `"none"`; every non-sentinel path is read, and a failed
read reports an error and continues with the next prompt. -/
def LoadAndCreatePolicyModules (fs : List (Str × Str)) : List Str → List Event
  | [] => []
  | p :: rest =>
    Event.policyPrompt ::
      (if p = noneStr then []
       else
         Event.policyRead p ::
           (match ReadFileContents fs p with
            | .error _ => Event.policyReadErr :: LoadAndCreatePolicyModules fs rest
            | .ok _ => LoadAndCreatePolicyModules fs rest))

/-- The `namespace:name:port` line rendered for one service port by
`fmt.Sprintf("%s:%s:%d", ...)`, used both for display and for matching. -/
def renderTriple (ns name : Str) (port : Int) : Str :=
  ns ++ ':' :: name ++ ':' :: intStr port

/-- The exact-match scan of the selection string against every rendered
`namespace:name:port` triple of the discovered services. -/
def serviceFound (services : List KubeService) (choice : Str) : Bool :=
  services.any (fun s => s.ports.any (fun p => renderTriple s.ns s.name p = choice))

/-- Embedding of the selection loop of `AddIngressToServices`: prompts until
the sentinel `"none"`; an unmatched selection reports not-found and continues;
a matched one (after the per-selection domain prompt under the multiple-domain
strategy) splits the selection, converts the port, and issues the
create-ingress facade call. A port-conversion failure after a match returns
from the whole function (ending the loop); a create-ingress failure is
reported and the loop continues. -/
def addIngressLoop (e : Env) (services : List KubeService) (singleDomain : Bool)
    (domain : Str) : List (Str × Str) → List Event
  | [] => []
  | (choice, dAns) :: rest =>
    Event.svcPrompt ::
      (if choice = noneStr then []
       else if !serviceFound services choice then
         Event.notFound :: addIngressLoop e services singleDomain domain rest
       else
         let domain2 := if singleDomain then domain else dAns
         let tDom : List Event := if singleDomain then [] else [Event.domainPrompt]
         let parts := splitColon choice
         match atoi (parts.getD 2 []) with
         | none => tDom ++ [Event.atoiErr]
         | some port =>
           let create := Event.ingressCreate (parts.getD 0 [])
             ("ngrok-ingress-".toList ++ parts.getD 1 []) domain2 (parts.getD 1 []) (wrap32 port)
           let tErr : List Event := if e.failCreateIngress then [Event.ingressErr] else []
           tDom ++ create :: tErr ++ addIngressLoop e services singleDomain domain rest)

/-- Embedding of `AddIngressToServices`: lists every service once (an error
aborts the whole step), displays them, then runs the selection loop. -/
def AddIngressToServices (e : Env) (singleDomain : Bool) (domain : Str)
    (answers : List (Str × Str)) : List Event :=
  match listAllServices e with
  | .error _ => [Event.listServices, Event.listErr]
  | .ok services => Event.listServices :: addIngressLoop e services singleDomain domain answers

/-- The secret data literal built from the two collected values:
`{AUTHTOKEN: ..., API_KEY: ...}`. -/
def credData (authtoken apikey : Str) : List (Str × Str) :=
  [("AUTHTOKEN".toList, authtoken), ("API_KEY".toList, apikey)]

/-- The label literal attached to the credentials secret. -/
def ngrokLabels : List (Str × Str) :=
  [("app".toList, "ngrok".toList), ("cloud".toList, "ngrok".toList),
   ("kubernetes.io/minikube-addons".toList, "ngrok".toList)]

/-- The credential phase of the wizard: check secret existence (the result
only selects the prompt wording), ask, and on acceptance issue the
create-secret call with exactly the two collected values. -/
def credPhase (e : Env) (inp : WizardInput) : Except Str Env × List Event :=
  match checkSecretExists e nsNgrok secNgrok with
  | .error m => (.error m, [Event.secretCheck])
  | .ok _secExists =>
    if inp.setCredentials then
      match createSecret e nsNgrok secNgrok (credData inp.authtoken inp.apikey) ngrokLabels with
      | .error m =>
        (.error m,
         [Event.secretCheck, Event.credPrompt, Event.secretCreate (credData inp.authtoken inp.apikey)])
      | .ok e2 =>
        (.ok e2,
         [Event.secretCheck, Event.credPrompt, Event.secretCreate (credData inp.authtoken inp.apikey)])
    else (.ok e, [Event.secretCheck, Event.credPrompt])

/-- The post-credential phase of the wizard: the early `break` when ingress
configuration is declined, the domain-strategy choice (`single` collects the
one shared domain up front; otherwise `domain` stays the empty Go string), the
optional policy-module loop, and the optional service-mapping loop. -/
def ingressPhase (e : Env) (inp : WizardInput) : List Event :=
  if !inp.configureIngress then []
  else
    let singleDomain := inp.domainChoice = singleStr
    let domain : Str := if singleDomain then inp.sharedDomain else []
    let tStrategy :=
      Event.strategyPrompt :: (if singleDomain then [Event.sharedDomainPrompt] else [])
    let tPolicy :=
      if inp.configurePolicyModule then LoadAndCreatePolicyModules e.fs inp.policyAnswers else []
    let tMap :=
      if inp.configureIngressToServices then
        AddIngressToServices e singleDomain domain inp.serviceAnswers
      else []
    tStrategy ++ tPolicy ++ tMap

/-- Embedding of the `"ngrok"` case of `addonsConfigureCmd`. The namespace
phase checks and, when absent, creates the addon namespace; then the credential
phase runs; then the interactive ingress phase. Modelled from the spec: a
facade failure in the namespace or credential phase is surfaced with
`out.ErrT(style.Fatal, ...)` / `out.FailureT` (whose implementation is not in
the excerpt) and, per the error taxonomy of the spec, is fatal to the whole run,
so it aborts here with no later step executed. -/
def wizardNgrok (e : Env) (inp : WizardInput) : Except Str Unit × Env × List Event :=
  match checkNamespace e nsNgrok with
  | .error m => (.error m, e, [Event.nsCheck])
  | .ok nsExists =>
    let nsStep : Except Str Env × List Event :=
      if nsExists then (.ok e, [Event.nsCheck])
      else
        match createNamespace e nsNgrok with
        | .error m => (.error m, [Event.nsCheck, Event.nsCreate])
        | .ok e1 => (.ok e1, [Event.nsCheck, Event.nsCreate])
    match nsStep with
    | (.error m, t1) => (.error m, e, t1)
    | (.ok e1, t1) =>
      match credPhase e1 inp with
      | (.error m, t2) => (.error m, e1, t1 ++ t2)
      | (.ok e2, t2) => (.ok (), e2, t1 ++ t2 ++ ingressPhase e2 inp)

/-! ### Event classification and loop-trace lemmas -/

/-- An event of the two setup steps (namespace ensure, credential
reconciliation), as opposed to the later interactive steps (domain strategy,
policy modules, service mapping). -/
def Event.isSetup : Event → Bool
  | .nsCheck | .nsCreate | .secretCheck | .credPrompt | .secretCreate _ => true
  | _ => false

theorem policyLoop_all_not_setup (fs : List (Str × Str)) (l : List Str) :
    (LoadAndCreatePolicyModules fs l).all (fun ev => !ev.isSetup) = true := by
  induction l with
  | nil => rfl
  | cons p rest ih =>
    simp only [LoadAndCreatePolicyModules, List.all_cons, Bool.and_eq_true]
    refine ⟨rfl, ?_⟩
    by_cases hp : p = noneStr
    · simp [hp]
    · rw [if_neg hp, List.all_cons]
      cases hr : ReadFileContents fs p with
      | error m =>
        simp only [List.all_cons, Bool.and_eq_true]
        exact ⟨rfl, rfl, ih⟩
      | ok d =>
        simp only [List.all_cons, Bool.and_eq_true]
        exact ⟨rfl, ih⟩

theorem addIngressLoop_all_not_setup (e : Env) (services : List KubeService) (sd : Bool)
    (dom : Str) (l : List (Str × Str)) :
    (addIngressLoop e services sd dom l).all (fun ev => !ev.isSetup) = true := by
  induction l with
  | nil => rfl
  | cons hd rest ih =>
    match hd with
    | (choice, dAns) =>
      simp only [addIngressLoop, List.all_cons, Bool.and_eq_true]
      refine ⟨rfl, ?_⟩
      by_cases hc : choice = noneStr
      · simp [hc]
      · rw [if_neg hc]
        by_cases hf : serviceFound services choice = true
        · rw [hf]
          show (List.all (match atoi ((splitColon choice).getD 2 []) with
            | none => _ | some port => _) _) = true
          cases ha : atoi ((splitColon choice).getD 2 []) with
          | none =>
            by_cases hsd : sd = true <;> simp [hsd, Event.isSetup]
          | some port =>
            rw [List.all_eq_true] at ih
            rcases Bool.eq_false_or_eq_true sd with hsd | hsd <;> subst hsd <;>
              by_cases hfc : e.failCreateIngress = true <;>
              simp only [hfc] <;>
              simp [List.all_append, Event.isSetup] <;>
              (intro x hx; simpa [Event.isSetup] using ih x hx)
        · simp only [Bool.not_eq_true] at hf
          rw [hf]
          simp only [Bool.not_false, if_true, List.all_cons, Bool.and_eq_true]
          exact ⟨rfl, ih⟩

theorem addIngressToServices_all_not_setup (e : Env) (sd : Bool) (dom : Str)
    (answers : List (Str × Str)) :
    (AddIngressToServices e sd dom answers).all (fun ev => !ev.isSetup) = true := by
  unfold AddIngressToServices
  cases hl : listAllServices e with
  | error m => rfl
  | ok services =>
    simp only [List.all_cons, Bool.and_eq_true]
    exact ⟨rfl, addIngressLoop_all_not_setup e services sd dom answers⟩

theorem ingressPhase_all_not_setup (e : Env) (inp : WizardInput) :
    (ingressPhase e inp).all (fun ev => !ev.isSetup) = true := by
  unfold ingressPhase
  by_cases hci : inp.configureIngress = true
  · simp only [hci, Bool.not_true]
    rw [if_neg (by simp)]
    simp only [List.all_append, Bool.and_eq_true, List.all_cons]
    refine ⟨⟨?_, ?_⟩, ?_⟩
    · by_cases hsd : inp.domainChoice = singleStr <;> simp [hsd, Event.isSetup]
    · by_cases hpm : inp.configurePolicyModule = true
      · simp only [hpm, if_true]
        exact policyLoop_all_not_setup e.fs inp.policyAnswers
      · simp [hpm]
    · by_cases hms : inp.configureIngressToServices = true
      · simp only [hms, if_true]
        exact addIngressToServices_all_not_setup e _ _ inp.serviceAnswers
      · simp [hms]
  · simp [hci]

/-! ### Concrete fixtures for the witnesses -/

/-- A concrete two-service cluster service list used by the witnesses. -/
def svcsW : List KubeService :=
  [⟨"kube-system".toList, "dns".toList, [53]⟩, ⟨"default".toList, "web".toList, [80]⟩]

/-- A concrete starting environment for the witnesses: addon namespace absent,
a stale credentials secret present, no failure injection. -/
def envW : Env :=
  { cluster :=
      { namespaces := ["default".toList],
        secrets := [⟨nsNgrok, secNgrok, [("OLD".toList, "stale".toList)], []⟩],
        services := svcsW },
    failNsCheck := false, failNsCreate := false, failSecretCheck := false,
    failSecretCreate := false, failListServices := false, failCreateIngress := false,
    fs := [] }

/-! ### The claims -/

/-- C1: the credential gate `ngrokValidation` returns the distinguished skip
outcome exactly when the credentials secret is absent from the addon namespace
(and the existence check succeeded), returns an error exactly when the
existence check itself fails, and performs no mutation of cluster state. -/
theorem ngrokValidation_gate (e : Env) :
    (ngrokValidation e).2 = e ∧
    ((ngrokValidation e).1 = ValidationResult.skipThisAddon ↔
      e.failSecretCheck = false ∧ (lookupSecret e.cluster nsNgrok secNgrok).isSome = false) ∧
    ((∃ m, (ngrokValidation e).1 = ValidationResult.err m) ↔ e.failSecretCheck = true) := by
  unfold ngrokValidation checkSecretExists
  by_cases hf : e.failSecretCheck = true
  · simp [hf]
  · simp only [Bool.not_eq_true] at hf
    by_cases hs : (lookupSecret e.cluster nsNgrok secNgrok).isSome = true <;>
      simp_all

/-- C9: a value string that parses as boolean false makes the enable/disable
entry point return no error and perform no cluster operation at all, and a
value string that does not parse as a boolean makes it return an error, again
with no cluster operation. -/
theorem enableOrDisableNgrok_gate (e : Env) (name val : Str) :
    (parseBool val = some false →
      enableOrDisableNgrok e name val = (Except.ok (), [])) ∧
    (parseBool val = none →
      enableOrDisableNgrok e name val =
        (Except.error ("parsing bool: ".toList ++ name), [])) := by
  constructor
  · intro h
    unfold enableOrDisableNgrok
    rw [h]
  · intro h
    unfold enableOrDisableNgrok
    rw [h]

/-- Witness for C9 at the concrete value strings `"false"` and `"maybe"`. -/
theorem enableOrDisableNgrok_gate_witness :
    enableOrDisableNgrok envW "ngrok".toList "false".toList = (Except.ok (), []) ∧
    enableOrDisableNgrok envW "ngrok".toList "maybe".toList =
      (Except.error ("parsing bool: ".toList ++ "ngrok".toList), []) :=
  ⟨(enableOrDisableNgrok_gate envW "ngrok".toList "false".toList).1 (by decide),
   (enableOrDisableNgrok_gate envW "ngrok".toList "maybe".toList).2 (by decide)⟩

/-- C8: in the policy-module loop every non-sentinel path entered is read; a
failed read reports an error and the prompt loop continues with the next
iteration, a successful read also continues, and the loop ends exactly when
the sentinel value `"none"` is entered. -/
theorem policy_module_loop (fs : List (Str × Str)) (p : Str) (rest : List Str) :
    (p ≠ noneStr → (∃ m, ReadFileContents fs p = Except.error m) →
      LoadAndCreatePolicyModules fs (p :: rest) =
        Event.policyPrompt :: Event.policyRead p :: Event.policyReadErr ::
          LoadAndCreatePolicyModules fs rest) ∧
    (p ≠ noneStr → (∃ d, ReadFileContents fs p = Except.ok d) →
      LoadAndCreatePolicyModules fs (p :: rest) =
        Event.policyPrompt :: Event.policyRead p :: LoadAndCreatePolicyModules fs rest) ∧
    (LoadAndCreatePolicyModules fs (noneStr :: rest) = [Event.policyPrompt]) := by
  refine ⟨?_, ?_, ?_⟩
  · rintro hp ⟨m, hm⟩
    simp [LoadAndCreatePolicyModules, hp, hm]
  · rintro hp ⟨d, hd⟩
    simp [LoadAndCreatePolicyModules, hp, hd]
  · simp [LoadAndCreatePolicyModules]

/-- Witness for C8: one unreadable path, one readable path, then the
sentinel. -/
theorem policy_module_loop_witness :
    LoadAndCreatePolicyModules [("mod".toList, "data".toList)]
        ["missing".toList, "mod".toList, noneStr] =
      [Event.policyPrompt, Event.policyRead "missing".toList, Event.policyReadErr,
       Event.policyPrompt, Event.policyRead "mod".toList, Event.policyPrompt] := by
  rw [(policy_module_loop [("mod".toList, "data".toList)] "missing".toList
      ["mod".toList, noneStr]).1 (by decide) ⟨_, rfl⟩,
    (policy_module_loop [("mod".toList, "data".toList)] "mod".toList [noneStr]).2.1
      (by decide) ⟨_, rfl⟩,
    (policy_module_loop [("mod".toList, "data".toList)] noneStr []).2.2]

theorem not_mem_of_all_not_setup {l : List Event}
    (h : l.all (fun ev => !ev.isSetup) = true) {ev : Event} (hev : ev.isSetup = true) :
    ev ∉ l := by
  intro hm
  have := List.all_eq_true.mp h ev hm
  simp [hev] at this

/-- C2: if any facade call of the setup steps (namespace check, namespace
creation, secret check, credential-secret creation) fails, the wizard run
terminates with an error and no later wizard step (domain strategy, policy
modules, service mapping) is executed: every event of the run is a setup
event. -/
theorem wizard_setup_error_fatal (e : Env) (inp : WizardInput)
    (h : e.failNsCheck = true ∨
      (e.failNsCreate = true ∧ e.cluster.namespaces.contains nsNgrok = false) ∨
      e.failSecretCheck = true ∨
      (e.failSecretCreate = true ∧ inp.setCredentials = true)) :
    (∃ m, (wizardNgrok e inp).1 = Except.error m) ∧
    ((wizardNgrok e inp).2.2).all Event.isSetup = true := by
  unfold wizardNgrok checkNamespace createNamespace credPhase checkSecretExists createSecret
  by_cases h1 : e.failNsCheck = true
  · simp [h1, Event.isSetup]
  · by_cases hctn : e.cluster.namespaces.contains nsNgrok = true <;>
      by_cases h2 : e.failNsCreate = true <;>
        by_cases h3 : e.failSecretCheck = true <;>
          by_cases h4 : e.failSecretCreate = true <;>
            by_cases h5 : inp.setCredentials = true <;>
              simp_all [Event.isSetup]

/-- A concrete operator-input record for the witnesses: accept the credential
prompt, configure ingress with the single-domain strategy, skip policy
modules, and map the dns service before entering the sentinel. -/
def inpW : WizardInput :=
  { setCredentials := true, authtoken := "tok".toList, apikey := "key".toList,
    configureIngress := true, domainChoice := singleStr,
    sharedDomain := "foo.ngrok.app".toList,
    configurePolicyModule := false, policyAnswers := [],
    configureIngressToServices := true,
    serviceAnswers := [("kube-system:dns:53".toList, "unused".toList), (noneStr, [])] }

/-- Witness for C2: a concrete run in which the secret-existence check fails;
the run errors and its trace holds setup events only. -/
theorem wizard_setup_error_fatal_witness :
    (∃ m, (wizardNgrok { envW with failSecretCheck := true } inpW).1 = Except.error m) ∧
    ((wizardNgrok { envW with failSecretCheck := true } inpW).2.2).all Event.isSetup = true :=
  wizard_setup_error_fatal { envW with failSecretCheck := true } inpW (by simp [envW])

/-- C3: when the operator accepts the credential prompt and the setup facade
calls succeed, the stored credentials secret after the run is exactly the
two-key bundle built from the entered values, whatever the prior secret
contents were: no prior key or value survives. -/
theorem wizard_secret_replace (e : Env) (inp : WizardInput)
    (h1 : e.failNsCheck = false) (h2 : e.failNsCreate = false)
    (h3 : e.failSecretCheck = false) (h4 : e.failSecretCreate = false)
    (h5 : inp.setCredentials = true) :
    lookupSecret ((wizardNgrok e inp).2.1).cluster nsNgrok secNgrok =
      some ⟨nsNgrok, secNgrok, credData inp.authtoken inp.apikey, ngrokLabels⟩ := by
  unfold wizardNgrok checkNamespace createNamespace credPhase checkSecretExists createSecret
  by_cases hctn : e.cluster.namespaces.contains nsNgrok = true <;>
    simp_all [lookupSecret, List.find?]

/-- Witness for C3: two consecutive accepted runs; after the second run the
stored bundle is exactly the second pair, with no trace of the stale key or
the first pair. -/
theorem wizard_secret_replace_witness :
    lookupSecret ((wizardNgrok (wizardNgrok envW inpW).2.1
        { inpW with authtoken := "c".toList, apikey := "d".toList }).2.1).cluster
      nsNgrok secNgrok =
    some ⟨nsNgrok, secNgrok, credData "c".toList "d".toList, ngrokLabels⟩ :=
  wizard_secret_replace (wizardNgrok envW inpW).2.1
    { inpW with authtoken := "c".toList, apikey := "d".toList }
    (by decide) (by decide) (by decide) (by decide) (by decide)

theorem wizard_ok_env (e : Env) (inp : WizardInput)
    (h1 : e.failNsCheck = false) (h2 : e.failNsCreate = false)
    (h3 : e.failSecretCheck = false) (h4 : e.failSecretCreate = false) :
    (wizardNgrok e inp).1 = Except.ok () ∧
    ((wizardNgrok e inp).2.1).cluster.namespaces.contains nsNgrok = true ∧
    ((wizardNgrok e inp).2.1).failNsCheck = false ∧
    ((wizardNgrok e inp).2.1).failNsCreate = false ∧
    ((wizardNgrok e inp).2.1).failSecretCheck = false ∧
    ((wizardNgrok e inp).2.1).failSecretCreate = false := by
  unfold wizardNgrok checkNamespace createNamespace credPhase checkSecretExists createSecret
  by_cases hctn : e.cluster.namespaces.contains nsNgrok = true <;>
    by_cases h5 : inp.setCredentials = true <;>
      simp_all

theorem wizard_no_nsCreate (e : Env) (inp : WizardInput)
    (h1 : e.failNsCheck = false) (h3 : e.failSecretCheck = false)
    (h4 : e.failSecretCreate = false)
    (hc : e.cluster.namespaces.contains nsNgrok = true) :
    (wizardNgrok e inp).1 = Except.ok () ∧
    Event.nsCreate ∉ (wizardNgrok e inp).2.2 := by
  unfold wizardNgrok checkNamespace credPhase checkSecretExists createSecret
  by_cases h5 : inp.setCredentials = true <;>
    simp_all <;>
    exact not_mem_of_all_not_setup (ingressPhase_all_not_setup _ _) rfl

/-- C7: the namespace-ensure step is idempotent: its creation call is issued
exactly when the existence check reports the namespace absent, and a second
wizard run against the state left by a successful first run (where the
namespace then exists) produces no error and no second creation call. -/
theorem wizard_namespace_idempotent (e : Env) (inp inp2 : WizardInput)
    (h1 : e.failNsCheck = false) (h2 : e.failNsCreate = false)
    (h3 : e.failSecretCheck = false) (h4 : e.failSecretCreate = false) :
    (Event.nsCreate ∈ (wizardNgrok e inp).2.2 ↔
      e.cluster.namespaces.contains nsNgrok = false) ∧
    (wizardNgrok (wizardNgrok e inp).2.1 inp2).1 = Except.ok () ∧
    Event.nsCreate ∉ (wizardNgrok (wizardNgrok e inp).2.1 inp2).2.2 := by
  obtain ⟨hok, hcont, hf1, hf2, hf3, hf4⟩ := wizard_ok_env e inp h1 h2 h3 h4
  obtain ⟨hok2, hmem2⟩ := wizard_no_nsCreate (wizardNgrok e inp).2.1 inp2 hf1 hf3 hf4 hcont
  refine ⟨?_, hok2, hmem2⟩
  by_cases hctn : e.cluster.namespaces.contains nsNgrok = true
  · obtain ⟨hok1, hmem1⟩ := wizard_no_nsCreate e inp h1 h3 h4 hctn
    simp [hmem1, hctn]
    simpa using hctn
  · simp only [Bool.not_eq_true] at hctn
    unfold wizardNgrok checkNamespace createNamespace credPhase checkSecretExists createSecret
    by_cases h5 : inp.setCredentials = true <;> simp_all

/-- Witness for C7: a concrete first run creates the namespace (it is absent
in `envW`); the second run succeeds with no creation call. -/
theorem wizard_namespace_idempotent_witness :
    (Event.nsCreate ∈ (wizardNgrok envW inpW).2.2 ↔
      envW.cluster.namespaces.contains nsNgrok = false) ∧
    (wizardNgrok (wizardNgrok envW inpW).2.1 inpW).1 = Except.ok () ∧
    Event.nsCreate ∉ (wizardNgrok (wizardNgrok envW inpW).2.1 inpW).2.2 :=
  wizard_namespace_idempotent envW inpW inpW (by decide) (by decide) (by decide) (by decide)

theorem serviceFound_split (services : List KubeService) (choice : Str)
    (hsv : ∀ s ∈ services, ':' ∉ s.ns ∧ ':' ∉ s.name)
    (h : serviceFound services choice = true) :
    ∃ s ∈ services, ∃ p ∈ s.ports, splitColon choice = [s.ns, s.name, intStr p] := by
  unfold serviceFound at h
  rw [List.any_eq_true] at h
  obtain ⟨s, hs, hp⟩ := h
  rw [List.any_eq_true] at hp
  obtain ⟨p, hpp, heq⟩ := hp
  have heq2 : renderTriple s.ns s.name p = choice := of_decide_eq_true heq
  subst heq2
  refine ⟨s, hs, p, hpp, ?_⟩
  unfold renderTriple
  rw [List.append_assoc, List.cons_append, splitColon_append_colon _ (hsv s hs).1,
    splitColon_append_colon _ (hsv s hs).2,
    splitColon_of_no_colon (colon_not_mem_intStr p)]

/-- C10: when no discovered service namespace or name contains a colon, any
selection that passes the exact-match check splits on colons into exactly
three segments whose third is a decimal integer, so the port-conversion error
branch after a successful match (which exits the mapping loop) is never
taken. -/
theorem matched_selection_split_safe (services : List KubeService)
    (hsv : ∀ s ∈ services, ':' ∉ s.ns ∧ ':' ∉ s.name) :
    (∀ choice : Str, serviceFound services choice = true →
      (splitColon choice).length = 3 ∧
      atoi ((splitColon choice).getD 2 []) ≠ none) ∧
    (∀ (e : Env) (sd : Bool) (dom : Str) (answers : List (Str × Str)),
      Event.atoiErr ∉ addIngressLoop e services sd dom answers) := by
  have key : ∀ choice : Str, serviceFound services choice = true →
      (splitColon choice).length = 3 ∧ atoi ((splitColon choice).getD 2 []) ≠ none := by
    intro choice h
    obtain ⟨s, hs, p, hpp, hsplit⟩ := serviceFound_split services choice hsv h
    rw [hsplit]
    refine ⟨rfl, ?_⟩
    show atoi (intStr p) ≠ none
    rw [atoi_intStr]
    exact Option.noConfusion
  refine ⟨key, ?_⟩
  intro e sd dom answers
  induction answers with
  | nil => simp [addIngressLoop]
  | cons hd rest ih =>
    obtain ⟨choice, dAns⟩ := hd
    simp only [addIngressLoop]
    by_cases hc : choice = noneStr
    · simp [hc]
    · by_cases hf : serviceFound services choice = true
      · obtain ⟨hlen, hat⟩ := key choice hf
        cases ha : atoi ((splitColon choice).getD 2 []) with
        | none => exact absurd ha hat
        | some port =>
          rcases Bool.eq_false_or_eq_true sd with hsd | hsd <;> subst hsd <;>
            by_cases hfc : e.failCreateIngress = true <;>
            simp [hc, hf, ha, hfc, ih]
      · simp only [Bool.not_eq_true] at hf
        simp [hc, hf, ih]

/-- Witness for C10 at the concrete colon-free service list and the matched
selection of the dns service. -/
theorem matched_selection_split_safe_witness :
    ((splitColon "kube-system:dns:53".toList).length = 3 ∧
      atoi ((splitColon "kube-system:dns:53".toList).getD 2 []) ≠ none) ∧
    Event.atoiErr ∉ addIngressLoop envW svcsW true "d".toList
      [("kube-system:dns:53".toList, [])] :=
  ⟨(matched_selection_split_safe svcsW (by decide)).1 "kube-system:dns:53".toList (by decide),
   (matched_selection_split_safe svcsW (by decide)).2 envW true "d".toList
     [("kube-system:dns:53".toList, [])]⟩

/-- C5: a non-sentinel selection that does not exactly equal any rendered
`namespace:name:port` triple is reported not-found, causes no ingress
creation, and the selection loop continues with the remaining inputs; and any
ingress-creation event of the loop stems from an input whose selection passed
the exact-match check. -/
theorem selection_exact_match (e : Env) (services : List KubeService) (sd : Bool)
    (dom choice dAns : Str) (rest inputs : List (Str × Str)) :
    (choice ≠ noneStr → serviceFound services choice = false →
      addIngressLoop e services sd dom ((choice, dAns) :: rest) =
        Event.svcPrompt :: Event.notFound :: addIngressLoop e services sd dom rest) ∧
    (∀ ns nm d sv p, Event.ingressCreate ns nm d sv p ∈ addIngressLoop e services sd dom inputs →
      ∃ q ∈ inputs, serviceFound services q.1 = true) := by
  constructor
  · intro hc hf
    simp [addIngressLoop, hc, hf]
  · induction inputs with
    | nil =>
      intro ns nm d sv p h
      simp [addIngressLoop] at h
    | cons hd rest2 ih =>
      obtain ⟨choice2, dAns2⟩ := hd
      intro ns nm d sv p h
      simp only [addIngressLoop] at h
      rcases List.mem_cons.mp h with h | h
      · exact absurd h (by simp)
      · by_cases hc2 : choice2 = noneStr
        · simp [hc2] at h
        · rw [if_neg hc2] at h
          by_cases hf2 : serviceFound services choice2 = true
          · exact ⟨(choice2, dAns2), List.mem_cons_self _ _, hf2⟩
          · simp only [Bool.not_eq_true] at hf2
            rw [hf2] at h
            simp only [Bool.not_false, if_true] at h
            rcases List.mem_cons.mp h with h | h
            · exact absurd h (by simp)
            · obtain ⟨q, hq, hfq⟩ := ih ns nm d sv p h
              exact ⟨q, List.mem_cons_of_mem _ hq, hfq⟩

/-- Witness for C5: the wrong-port selection `kube-system:dns:9999` is
reported not-found with no creation, and a creation event of a concrete run
stems from the matching selection `kube-system:dns:53`. -/
theorem selection_exact_match_witness :
    addIngressLoop envW svcsW true "d".toList [("kube-system:dns:9999".toList, [])] =
      [Event.svcPrompt, Event.notFound] ∧
    (∃ q ∈ [("kube-system:dns:53".toList, ("x".toList : Str))],
      serviceFound svcsW q.1 = true) := by
  constructor
  · rw [(selection_exact_match envW svcsW true "d".toList "kube-system:dns:9999".toList []
      [] []).1 (by decide) (by decide)]
    rfl
  · exact (selection_exact_match envW svcsW true "d".toList [] [] []
      [("kube-system:dns:53".toList, "x".toList)]).2
      "kube-system".toList "ngrok-ingress-dns".toList "d".toList "dns".toList 53 (by decide)

/-- Holds when an event is either not an ingress-creation request or is one
carrying the given domain. -/
def domainsAre (dom : Str) : Event → Bool
  | .ingressCreate _ _ d _ _ => d = dom
  | _ => true

theorem addIngressLoop_single_domains (e : Env) (services : List KubeService)
    (dom : Str) (l : List (Str × Str)) :
    (addIngressLoop e services true dom l).all (domainsAre dom) = true := by
  induction l with
  | nil => rfl
  | cons hd rest ih =>
    obtain ⟨choice, dAns⟩ := hd
    simp only [addIngressLoop, List.all_cons, Bool.and_eq_true]
    refine ⟨rfl, ?_⟩
    by_cases hc : choice = noneStr
    · simp [hc]
    · by_cases hf : serviceFound services choice = true
      · cases ha : atoi ((splitColon choice).getD 2 []) with
        | none => simp [hc, hf, ha, domainsAre]
        | some port =>
          by_cases hfc : e.failCreateIngress = true <;>
            simp [hc, hf, ha, hfc, domainsAre, ih]
      · simp only [Bool.not_eq_true] at hf
        simp [hc, hf, domainsAre, ih]

theorem policyLoop_domains (fs : List (Str × Str)) (dom : Str) (l : List Str) :
    (LoadAndCreatePolicyModules fs l).all (domainsAre dom) = true := by
  induction l with
  | nil => rfl
  | cons p rest ih =>
    simp only [LoadAndCreatePolicyModules, List.all_cons, Bool.and_eq_true]
    refine ⟨rfl, ?_⟩
    by_cases hp : p = noneStr
    · simp [hp]
    · cases hr : ReadFileContents fs p <;> simp [hp, hr, domainsAre, ih]

theorem ingressPhase_single_domains (e : Env) (inp : WizardInput)
    (h : inp.domainChoice = singleStr) :
    (ingressPhase e inp).all (domainsAre inp.sharedDomain) = true := by
  unfold ingressPhase
  by_cases hci : inp.configureIngress = true
  · simp only [hci, Bool.not_true]
    rw [if_neg (by simp)]
    simp only [List.all_append, Bool.and_eq_true, List.all_cons]
    refine ⟨⟨?_, ?_⟩, ?_⟩
    · simp [h, domainsAre]
    · by_cases hpm : inp.configurePolicyModule = true
      · simp only [hpm, if_true]
        exact policyLoop_domains e.fs inp.sharedDomain inp.policyAnswers
      · simp [hpm]
    · by_cases hms : inp.configureIngressToServices = true
      · simp only [hms, if_true]
        unfold AddIngressToServices
        cases hl : listAllServices e with
        | error m => rfl
        | ok services =>
          simp only [List.all_cons, Bool.and_eq_true]
          refine ⟨rfl, ?_⟩
          simp only [h, if_pos rfl]
          have := addIngressLoop_single_domains e services inp.sharedDomain inp.serviceAnswers
          simpa using this
      · simp [hms]
  · simp [hci]

theorem wizard_all_single_domains (e : Env) (inp : WizardInput)
    (h : inp.domainChoice = singleStr) :
    ((wizardNgrok e inp).2.2).all (domainsAre inp.sharedDomain) = true := by
  unfold wizardNgrok checkNamespace createNamespace credPhase checkSecretExists createSecret
  by_cases h1 : e.failNsCheck = true
  · simp [h1, domainsAre]
  · by_cases hctn : e.cluster.namespaces.contains nsNgrok = true <;>
      by_cases h2 : e.failNsCreate = true <;>
        by_cases h3 : e.failSecretCheck = true <;>
          by_cases h4 : e.failSecretCreate = true <;>
            by_cases h5 : inp.setCredentials = true <;>
              simp_all [domainsAre, List.all_append] <;>
                (intro x hx
                 simpa [domainsAre] using
                   List.all_eq_true.mp (ingressPhase_single_domains _ inp h) x hx)

/-- C4: under the single-domain strategy every ingress-creation request of the
wizard run carries the one up-front domain unmodified; under the
multiple-domain strategy each accepted selection is preceded by a fresh domain
prompt and its request carries the domain entered for that selection, also
when the same service is selected twice. -/
theorem domain_strategy_consistency (e : Env) (inp : WizardInput) (e2 : Env)
    (services : List KubeService) (dom choice dAns : Str)
    (rest : List (Str × Str)) (port : Int) :
    (inp.domainChoice = singleStr →
      ∀ ns nm d sv p, Event.ingressCreate ns nm d sv p ∈ (wizardNgrok e inp).2.2 →
        d = inp.sharedDomain) ∧
    (choice ≠ noneStr → serviceFound services choice = true →
      atoi ((splitColon choice).getD 2 []) = some port →
      addIngressLoop e2 services false dom ((choice, dAns) :: rest) =
        Event.svcPrompt :: Event.domainPrompt ::
          Event.ingressCreate ((splitColon choice).getD 0 [])
            ("ngrok-ingress-".toList ++ (splitColon choice).getD 1 []) dAns
            ((splitColon choice).getD 1 []) (wrap32 port) ::
          ((if e2.failCreateIngress then [Event.ingressErr] else []) ++
            addIngressLoop e2 services false dom rest)) := by
  constructor
  · intro h ns nm d sv p hmem
    have hall := wizard_all_single_domains e inp h
    have := List.all_eq_true.mp hall _ hmem
    simpa [domainsAre] using this
  · intro hc hf ha
    simp only [addIngressLoop, if_neg hc, hf, Bool.not_true, Bool.false_eq_true, if_false, ha]
    simp

/-- A concrete single-domain wizard input mapping two different services. -/
def inpC4 : WizardInput :=
  { inpW with
    serviceAnswers :=
      [("kube-system:dns:53".toList, []), ("default:web:80".toList, []), (noneStr, [])] }

/-- Witness for C4: in a concrete single-domain run both creation requests
carry the shared domain, and a concrete multiple-domain loop that selects the
same service twice with two different entered domains issues the two requests
with those respective domains. -/
theorem domain_strategy_consistency_witness :
    ("foo.ngrok.app".toList = inpC4.sharedDomain) ∧
    addIngressLoop envW svcsW false []
        [("kube-system:dns:53".toList, "a.ngrok.app".toList),
         ("kube-system:dns:53".toList, "b.ngrok.app".toList)] =
      [Event.svcPrompt, Event.domainPrompt,
       Event.ingressCreate "kube-system".toList "ngrok-ingress-dns".toList
         "a.ngrok.app".toList "dns".toList 53,
       Event.svcPrompt, Event.domainPrompt,
       Event.ingressCreate "kube-system".toList "ngrok-ingress-dns".toList
         "b.ngrok.app".toList "dns".toList 53] := by
  constructor
  · exact (domain_strategy_consistency envW inpC4 envW svcsW [] [] [] [] 0).1 rfl
      "default".toList "ngrok-ingress-web".toList "foo.ngrok.app".toList "web".toList 80
      (by decide)
  · rw [(domain_strategy_consistency envW inpC4 envW svcsW [] "kube-system:dns:53".toList
        "a.ngrok.app".toList [("kube-system:dns:53".toList, "b.ngrok.app".toList)] 53).2
      (by decide) (by decide) (by decide)]
    rw [(domain_strategy_consistency envW inpC4 envW svcsW [] "kube-system:dns:53".toList
        "b.ngrok.app".toList [] 53).2 (by decide) (by decide) (by decide)]
    decide

/-- Counterexample to C6 as stated: against a discovered service whose name
contains a colon (namespace `a`, name `b:c`, port 5), the selection
`a:b:c:5` has the non-integer third colon-segment `c`, yet it matches the
rendered triple, and the port conversion then fails and returns from the
whole mapping step: the trace ends at the conversion error and the second
queued selection is never prompted, so the loop is aborted. -/
theorem selection_parse_counterexample :
    atoi ((splitColon "a:b:c:5".toList).getD 2 []) = none ∧
    addIngressLoop envW [⟨"a".toList, "b:c".toList, [5]⟩] false []
        [("a:b:c:5".toList, "d".toList), ("kube-system:dns:53".toList, "x".toList)] =
      [Event.svcPrompt, Event.domainPrompt, Event.atoiErr] ∧
    ¬ 2 ≤ (addIngressLoop envW [⟨"a".toList, "b:c".toList, [5]⟩] false []
        [("a:b:c:5".toList, "d".toList), ("kube-system:dns:53".toList, "x".toList)]).count
      Event.svcPrompt := by decide

/-- C6 as amended: provided no discovered service namespace or name contains
a colon, every non-sentinel selection whose third colon-segment is not an
integer or which has fewer than three colon-delimited segments fails the
exact-match check, so it is reported not-found, creates no ingress, and the
selection loop continues with the next prompt. -/
theorem selection_parse_amended (e : Env) (services : List KubeService) (sd : Bool)
    (dom choice dAns : Str) (rest : List (Str × Str))
    (hsv : ∀ s ∈ services, ':' ∉ s.ns ∧ ':' ∉ s.name)
    (hc : choice ≠ noneStr)
    (hbad : atoi ((splitColon choice).getD 2 []) = none ∨ (splitColon choice).length < 3) :
    serviceFound services choice = false ∧
    addIngressLoop e services sd dom ((choice, dAns) :: rest) =
      Event.svcPrompt :: Event.notFound :: addIngressLoop e services sd dom rest := by
  have hnf : serviceFound services choice = false := by
    by_contra hcon
    rw [Bool.not_eq_false] at hcon
    obtain ⟨s, hs, p, hpp, hsplit⟩ := serviceFound_split services choice hsv hcon
    rcases hbad with hbad | hbad
    · rw [hsplit] at hbad
      have h2 : atoi (intStr p) = none := hbad
      rw [atoi_intStr] at h2
      exact Option.noConfusion h2
    · rw [hsplit] at hbad
      simp at hbad
  exact ⟨hnf, by simp [addIngressLoop, hc, hnf]⟩

/-- Witness for the amended C6: the non-integer-port selection
`kube-system:dns:abc` against the colon-free discovered list is not found and
the loop moves on. -/
theorem selection_parse_amended_witness :
    serviceFound svcsW "kube-system:dns:abc".toList = false ∧
    addIngressLoop envW svcsW false [] [("kube-system:dns:abc".toList, "d".toList)] =
      [Event.svcPrompt, Event.notFound] := by
  have h := selection_parse_amended envW svcsW false [] "kube-system:dns:abc".toList
    "d".toList [] (by decide) (by decide) (Or.inl (by decide))
  exact ⟨h.1, by rw [h.2]; rfl⟩
